import Mathlib

set_option maxRecDepth 40000

/-!
Verification of the blog build pipeline in `src/build_blog.py`.

Each Python function is shallowly embedded as an executable Lean function
over `String` / `List Char`.  The markdown conversion (`markdown_to_html`)
wraps an external library; the spec treats it as a pure function, so it is
modelled as an explicit conversion parameter threaded through the build.
Scanning functions whose recursion is not structural take an explicit fuel
argument; their wrappers instantiate the fuel with `length + 1`, which is
always sufficient because every recursive step consumes at least one
character.
-/

/-- Whitespace as matched by Python's regex class and by `str.strip()` /
`str.isspace()`, restricted to the BMP characters Python recognises. -/
def pyIsWs (c : Char) : Bool :=
  c = ' ' || c = '\t' || c = '\n' || c = '\r' || c = '\x0b' || c = '\x0c' ||
  c = '\x1c' || c = '\x1d' || c = '\x1e' || c = '\x1f' || c = '\x85' || c = '\xa0' ||
  c = '\u1680' || ('\u2000' ≤ c && c ≤ '\u200a') || c = '\u2028' || c = '\u2029' ||
  c = '\u202f' || c = '\u205f' || c = '\u3000'

/-- Remove characters satisfying `p` from both ends of a list
(Python's `str.strip(chars)` removes every matching character, not one layer). -/
def dropBoth (p : Char → Bool) (l : List Char) : List Char :=
  ((l.dropWhile p).reverse.dropWhile p).reverse

/-- `str.strip()` with no argument: strip whitespace from both ends. -/
def pyStripWsL (l : List Char) : List Char := dropBoth pyIsWs l

/-- The value transform of the frontmatter parser:
`value.strip().strip('"').strip("'")` (line 40 of `build_blog.py`). -/
def stripValL (l : List Char) : List Char :=
  dropBoth (fun c => c = '\'') (dropBoth (fun c => c = '"') (pyStripWsL l))

/-- Python `text.split('\n')`: split at every newline, keeping empty parts;
the result is always non-empty. -/
def splitNl : List Char → List (List Char)
  | [] => [[]]
  | c :: rest =>
    if c = '\n' then [] :: splitNl rest
    else
      match splitNl rest with
      | l :: ls => (c :: l) :: ls
      | [] => [[c]]

/-- Python dict assignment `m[k] = v`: overwrite in place if the key exists,
otherwise append (dicts preserve insertion order). -/
def dictInsert (m : List (String × String)) (k v : String) : List (String × String) :=
  if m.any (fun p => p.1 == k) then
    m.map (fun p => if p.1 == k then (k, v) else p)
  else m ++ [(k, v)]

/-- Python `m.get(k)` on the association-list model of a dict. -/
def dictGet (m : List (String × String)) (k : String) : Option String :=
  (m.find? (fun p => p.1 == k)).map (fun p => p.2)

/-- One iteration of the frontmatter line loop (lines 36-41 of
`build_blog.py`): if the line contains a colon, split at the first colon,
strip the key, strip and unquote the value, and store it. -/
def fmParseLine (m : List (String × String)) (line : List Char) : List (String × String) :=
  if line.contains ':' then
    let k := line.takeWhile (fun c => !(c == ':'))
    let v := (line.dropWhile (fun c => !(c == ':'))).tail
    dictInsert m (String.mk (pyStripWsL k)) (String.mk (stripValL v))
  else m

/-- All ways to match the regex piece `\s*\n` against a prefix of the input,
listed as the remainders after the match, shortest-`\s*` first.  A remainder
arises for every `'\n'` inside the maximal leading whitespace run. -/
def wsNlAsc : List Char → List (List Char)
  | [] => []
  | c :: rest =>
    (if c = '\n' then [rest] else []) ++ (if pyIsWs c then wsNlAsc rest else [])

/-- The literal `\n---` of the closing frontmatter delimiter. -/
def nlDashes : List Char := ['\n', '-', '-', '-']

/-- The literal `---` opening the frontmatter block. -/
def dashes3 : List Char := ['-', '-', '-']

/-- Match `(.*?)\n---\s*\n(.*)$` (DOTALL) against the input: the lazy group
grows from the left; at the first position where `\n---` followed by
`\s*\n` matches, the greedy `\s*` takes the longest run (the trailing
`(.*)$` always succeeds, so no further backtracking occurs).  Returns
(group 1, group 2). -/
def fmGroup1 : List Char → Option (List Char × List Char)
  | [] => none
  | c :: rest =>
    match (if nlDashes.isPrefixOf (c :: rest) then
             ((wsNlAsc ((c :: rest).drop 4)).reverse).head?
           else none) with
    | some r => some ([], r)
    | none => (fmGroup1 rest).map (fun pr => (c :: pr.1, pr.2))

/-- Backtracking over the remainders of the opening `\s*\n` (greedy order):
take the first remainder on which the rest of the pattern matches. -/
def fmTryRems : List (List Char) → Option (List Char × List Char)
  | [] => none
  | r :: rs =>
    match fmGroup1 r with
    | some pr => some pr
    | none => fmTryRems rs

/-- `re.match(r'^---\s*\n(.*?)\n---\s*\n(.*)$', content, re.DOTALL)`
(line 27-28 of `build_blog.py`): anchored at the start; on success returns
(frontmatter text, markdown body). -/
def fmMatch (s : List Char) : Option (List Char × List Char) :=
  if dashes3.isPrefixOf s then fmTryRems ((wsNlAsc (s.drop 3)).reverse)
  else none

/-- `parse_frontmatter` (lines 25-46 of `build_blog.py`): on a regex match,
fold the key-value loop over the lines of group 1 and return the metadata
with the body; otherwise return an empty mapping and the text unchanged. -/
def parse_frontmatter (content : String) : List (String × String) × String :=
  match fmMatch content.data with
  | some pr => ((splitNl pr.1).foldl fmParseLine [], String.mk pr.2)
  | none => ([], content)

/-- Index of the leftmost occurrence of `pat` as a contiguous sublist of the
input (`none` if it does not occur).  `firstIdx pat s = some i` is how a
regex engine finds the leftmost position where a literal can match. -/
def firstIdx (pat : List Char) : List Char → Option Nat
  | [] => if pat.isEmpty then some 0 else none
  | c :: rest =>
    if pat.isPrefixOf (c :: rest) then some 0
    else (firstIdx pat rest).map (fun i => i + 1)

/-- Whether `pat` occurs as a contiguous sublist of `s`. -/
def hasSub (pat s : List Char) : Bool := (firstIdx pat s).isSome

/-- Fuelled scan of Python `str.replace(old, new)` for a non-empty `old`:
replace every non-overlapping occurrence left to right, never rescanning
the replacement text. -/
def pyReplaceAux (pat rep : List Char) : Nat → List Char → List Char
  | 0, s => s
  | _ + 1, [] => []
  | f + 1, c :: rest =>
    if pat.isPrefixOf (c :: rest) then rep ++ pyReplaceAux pat rep f ((c :: rest).drop pat.length)
    else c :: pyReplaceAux pat rep f rest

/-- Python `s.replace(pat, rep)` (for the non-empty literals used by the
build script). -/
def pyReplace (pat rep s : String) : String :=
  String.mk (pyReplaceAux pat.data rep.data (s.data.length + 1) s.data)

/-- Python `str.title()` for the ASCII inputs at hand: an alphabetic
character is uppercased when the previous character is not alphabetic and
lowercased otherwise. -/
def pyTitleGo : Bool → List Char → List Char
  | _, [] => []
  | prevAlpha, c :: rest =>
    (if c.isAlpha then (if prevAlpha then c.toLower else c.toUpper) else c) ::
      pyTitleGo c.isAlpha rest

/-- Python `str.title()`. -/
def pyTitle (s : String) : String := String.mk (pyTitleGo false s.data)

/-- The default title `slug.replace('-', ' ').title()` (lines 65 and 156 of
`build_blog.py`). -/
def titleFromSlug (slug : String) : String := pyTitle (pyReplace "-" " " slug)

/-- ASCII digit test. -/
def isDig (c : Char) : Bool := '0' ≤ c && c ≤ '9'

/-- Digit value of an ASCII digit. -/
def dv (c : Char) : Nat := c.toNat - 48

/-- `re.match(r'\d{4}-\d{2}-\d{2}', date)` (lines 71 and 162): an anchored
prefix match, not a full match. -/
def isoDatePat : List Char → Bool
  | a :: b :: c :: d :: '-' :: e :: f :: '-' :: g :: h :: _ =>
    isDig a && isDig b && isDig c && isDig d && isDig e && isDig f && isDig g && isDig h
  | _ => false

/-- First alternative of a list of parses that succeeds. -/
def firstSome {α β : Type} (f : α → Option β) : List α → Option β
  | [] => none
  | a :: as =>
    match f a with
    | some b => some b
    | none => firstSome f as

/-- `%Y` of `_strptime`: exactly four digits. -/
def parse4Digits : List Char → Option (Nat × List Char)
  | a :: b :: c :: d :: rest =>
    if isDig a && isDig b && isDig c && isDig d then
      some (1000 * dv a + 100 * dv b + 10 * dv c + dv d, rest)
    else none
  | _ => none

/-- `%m` of `_strptime`: the regex alternation `1[0-2]|0[1-9]|[1-9]`,
candidates listed in the engine's preference order. -/
def monthCands (s : List Char) : List (Nat × List Char) :=
  (match s with
   | '1' :: c :: rest => if '0' ≤ c && c ≤ '2' then [(10 + dv c, rest)] else []
   | _ => []) ++
  (match s with
   | '0' :: c :: rest => if '1' ≤ c && c ≤ '9' then [(dv c, rest)] else []
   | _ => []) ++
  (match s with
   | c :: rest => if '1' ≤ c && c ≤ '9' then [(dv c, rest)] else []
   | _ => [])

/-- `%d` of `_strptime`: the regex alternation `3[01]|[12]\d|0[1-9]|[1-9]`. -/
def dayCands (s : List Char) : List (Nat × List Char) :=
  (match s with
   | '3' :: c :: rest => if c = '0' || c = '1' then [(30 + dv c, rest)] else []
   | _ => []) ++
  (match s with
   | a :: c :: rest =>
     if (a = '1' || a = '2') && isDig c then [(10 * dv a + dv c, rest)] else []
   | _ => []) ++
  (match s with
   | '0' :: c :: rest => if '1' ≤ c && c ≤ '9' then [(dv c, rest)] else []
   | _ => []) ++
  (match s with
   | c :: rest => if '1' ≤ c && c ≤ '9' then [(dv c, rest)] else []
   | _ => [])

/-- Gregorian leap year, as used by `datetime`. -/
def isLeap (y : Nat) : Bool := y % 4 = 0 && (y % 100 ≠ 0 || y % 400 = 0)

/-- Length of a month, as validated by the `datetime` constructor. -/
def daysInMonth (y m : Nat) : Nat :=
  if m = 2 then (if isLeap y then 29 else 28)
  else if m = 4 || m = 6 || m = 9 || m = 11 then 30
  else 31

/-- `datetime.strptime(s, '%Y-%m-%d')`: the format regex must consume the
whole string (with backtracking across the `%m`/`%d` alternations), and the
`datetime` constructor then validates the calendar date; `none` models the
`ValueError` that the script silently swallows. -/
def strptimeYmd (s : String) : Option (Nat × Nat × Nat) :=
  match parse4Digits s.data with
  | none => none
  | some (y, r1) =>
    match r1 with
    | '-' :: r2 =>
      match firstSome
          (fun mc =>
            match mc with
            | (m, '-' :: r3) =>
              (firstSome (fun dc => if dc.2.isEmpty then some dc.1 else none) (dayCands r3)).map
                (fun d => (m, d))
            | _ => none)
          (monthCands r2) with
      | none => none
      | some (m, d) => if 1 ≤ y && d ≤ daysInMonth y m then some (y, m, d) else none
    | _ => none

/-- `%B` of `strftime`: the full month name. -/
def monthName (m : Nat) : String :=
  if m = 1 then "January" else if m = 2 then "February" else if m = 3 then "March"
  else if m = 4 then "April" else if m = 5 then "May" else if m = 6 then "June"
  else if m = 7 then "July" else if m = 8 then "August" else if m = 9 then "September"
  else if m = 10 then "October" else if m = 11 then "November" else "December"

/-- `%d` of `strftime`: the day zero-padded to two digits. -/
def pad2 (n : Nat) : String := if n < 10 then "0" ++ toString n else toString n

/-- The date normalisation of lines 69-75 and 160-166 of `build_blog.py`:
if the ISO prefix pattern matches, attempt `strptime`/`strftime('%B %d, %Y')`;
any failure is silently ignored and the string passes through unchanged. -/
def format_date (s : String) : String :=
  if isoDatePat s.data then
    match strptimeYmd s with
    | some (y, m, d) => monthName m ++ " " ++ pad2 d ++ ", " ++ toString y
    | none => s
  else s

/-- `generate_blog_post` (lines 60-83 of `build_blog.py`): fill the template
by five successive literal `str.replace` passes, in the fixed order TITLE,
DESCRIPTION, DATE, SLUG, CONTENT.  `now` stands for
`datetime.now().strftime('%B %d, %Y')`, the time-of-run default date. -/
def generate_blog_post (metadata : List (String × String)) (html_content slug template now : String) : String :=
  let title := (dictGet metadata "title").getD (titleFromSlug slug)
  let description := (dictGet metadata "description").getD ""
  let date := format_date ((dictGet metadata "date").getD now)
  pyReplace "\x7b\x7bCONTENT\x7d\x7d" html_content
    (pyReplace "\x7b\x7bSLUG\x7d\x7d" slug
      (pyReplace "\x7b\x7bDATE\x7d\x7d" date
        (pyReplace "\x7b\x7bDESCRIPTION\x7d\x7d" description
          (pyReplace "\x7b\x7bTITLE\x7d\x7d" title template))))

/-- A Post Record as accumulated by `main` (lines 186-191 of
`build_blog.py`). -/
structure PostRec where
  slug : String
  title : String
  date : String
  description : String
deriving DecidableEq

/-- Python string comparison `a < b`: lexicographic in the Unicode code
points. -/
def pyStrLtL : List Char → List Char → Bool
  | [], [] => false
  | [], _ :: _ => true
  | _ :: _, [] => false
  | a :: as, b :: bs => if a < b then true else if b < a then false else pyStrLtL as bs

/-- Python string comparison on `String`. -/
def pyStrLt (a b : String) : Bool := pyStrLtL a.data b.data

/-- One step of a stable insertion giving Python's
`sorted(posts, key=lambda x: x.get('date', ''), reverse=True)`:
an element moves past exactly those already-sorted elements whose date is
strictly greater, so equal dates keep their original order. -/
def insertDesc (p : PostRec) : List PostRec → List PostRec
  | [] => [p]
  | q :: qs => if pyStrLt p.date q.date then q :: insertDesc p qs else p :: q :: qs

/-- `sorted(posts, key=lambda x: x.get('date', ''), reverse=True)`
(line 94 of `build_blog.py`): stable sort, descending in the date compared
as a string. -/
def sortDesc (l : List PostRec) : List PostRec := l.foldr insertDesc []

/-- The per-post HTML fragment of the listing (the f-string of lines
102-111 of `build_blog.py`, with the description paragraph only when the
description is non-empty). -/
def postFragment (p : PostRec) : String :=
  "\n          <div class=\"view-list-item\" style=\"margin-bottom: 1.5rem; padding-bottom: 1.5rem; border-bottom: 1px solid #e0e0e0;\">\n            <i class=\"far fa-file-alt pub-icon\" aria-hidden=\"true\"></i>\n            <a href=\"/blog/" ++
  p.slug ++
  "/\" style=\"font-size: 1.1rem; font-weight: 500;\">" ++
  p.title ++
  "</a>\n            <div class=\"article-metadata\" style=\"margin-top: 0.5rem;\">\n              <span class=\"article-date\">" ++
  p.date ++
  "</span>\n            </div>\n            " ++
  (if p.description = "" then ""
   else "<p style=\"margin-top: 0.5rem; color: #666;\">" ++ p.description ++ "</p>") ++
  "\n          </div>\n"

/-- `blog_list_html` (lines 91-113 of `build_blog.py`): the fragments of the
date-sorted posts concatenated, or the placeholder message when there are
no posts. -/
def blog_list_html (posts : List PostRec) : String :=
  match posts with
  | [] => "<p>No blog posts yet. Check back soon!</p>"
  | _ => String.join ((sortDesc posts).map postFragment)

/-- The replacement string handed to `re.sub` on line 118 of
`build_blog.py`: a fresh `<div id="blog-list">` region wrapping the
assembled fragment text. -/
def replText (posts : List PostRec) : String :=
  "<div id=\"blog-list\">" ++ blog_list_html posts ++ "\n          </div>"

/-- An item of a parsed `re.sub` replacement template: a literal character,
or a reference to group 0 (the whole match). -/
inductive TItem where
  | lit (c : Char)
  | group0
deriving DecidableEq

/-- The escapes translated by `sre_parse.parse_template`
(`\a \b \f \n \r \t \v \\`). -/
def escMap (c : Char) : Option Char :=
  if c = 'a' then some '\x07'
  else if c = 'b' then some '\x08'
  else if c = 'f' then some '\x0c'
  else if c = 'n' then some '\x0a'
  else if c = 'r' then some '\x0d'
  else if c = 't' then some '\x09'
  else if c = 'v' then some '\x0b'
  else if c = '\\' then some '\\'
  else none

/-- ASCII letter test (`ASCIILETTERS` of `sre_parse`). -/
def isAsciiLetter (c : Char) : Bool :=
  ('a' ≤ c && c ≤ 'z') || ('A' ≤ c && c ≤ 'Z')

/-- Octal digit test. -/
def isOct (c : Char) : Bool := '0' ≤ c && c ≤ '7'

/-- Scan a `\g<name>` group name up to the closing `>`. -/
def parseGroupName : List Char → Option (List Char × List Char)
  | [] => none
  | '>' :: rest => some ([], rest)
  | c :: rest => (parseGroupName rest).map (fun pr => (c :: pr.1, pr.2))

/-- Decimal value of a digit string. -/
def digitsToNat (l : List Char) : Nat := l.foldl (fun a c => 10 * a + dv c) 0

/-- Fuelled `sre_parse.parse_template` for a pattern with zero capture
groups: every group reference other than `\g<0>` raises `re.error`
(modelled as `Except.error`), `\0oo` and three-octal-digit escapes and the
known letter escapes produce characters, an unknown ASCII-letter escape
raises, and an unknown non-letter escape keeps the backslash. -/
def parseTemplateAux : Nat → List Char → Except Unit (List TItem)
  | 0, _ => Except.error ()
  | _ + 1, [] => Except.ok []
  | f + 1, c :: rest =>
    if c = '\\' then
      match rest with
      | [] => Except.error ()
      | e :: ds =>
        if e = 'g' then
          match ds with
          | '<' :: more =>
            match parseGroupName more with
            | none => Except.error ()
            | some (name, rest2) =>
              if !name.isEmpty && name.all isDig then
                if digitsToNat name = 0 then
                  (parseTemplateAux f rest2).map (fun ts => TItem.group0 :: ts)
                else Except.error ()
              else Except.error ()
          | _ => Except.error ()
        else if e = '0' then
          match ds with
          | o1 :: o2 :: r2 =>
            if isOct o1 then
              if isOct o2 then
                (parseTemplateAux f r2).map
                  (fun ts => TItem.lit (Char.ofNat (8 * dv o1 + dv o2)) :: ts)
              else
                (parseTemplateAux f (o2 :: r2)).map
                  (fun ts => TItem.lit (Char.ofNat (dv o1)) :: ts)
            else (parseTemplateAux f (o1 :: o2 :: r2)).map (fun ts => TItem.lit '\x00' :: ts)
          | [o1] =>
            if isOct o1 then
              (parseTemplateAux f []).map (fun ts => TItem.lit (Char.ofNat (dv o1)) :: ts)
            else (parseTemplateAux f [o1]).map (fun ts => TItem.lit '\x00' :: ts)
          | [] => (parseTemplateAux f []).map (fun ts => TItem.lit '\x00' :: ts)
        else if isDig e then
          match ds with
          | d2 :: r2 =>
            if isDig d2 then
              match r2 with
              | d3 :: r3 =>
                if isOct e && isOct d2 && isOct d3 then
                  let v := 64 * dv e + 8 * dv d2 + dv d3
                  if v ≤ 255 then
                    (parseTemplateAux f r3).map (fun ts => TItem.lit (Char.ofNat v) :: ts)
                  else Except.error ()
                else Except.error ()
              | [] => Except.error ()
            else Except.error ()
          | [] => Except.error ()
        else
          match escMap e with
          | some c2 => (parseTemplateAux f ds).map (fun ts => TItem.lit c2 :: ts)
          | none =>
            if isAsciiLetter e then Except.error ()
            else (parseTemplateAux f ds).map (fun ts => TItem.lit '\\' :: TItem.lit e :: ts)
    else (parseTemplateAux f rest).map (fun ts => TItem.lit c :: ts)

/-- Parse a replacement template (zero-group pattern). -/
def parseTemplate (s : List Char) : Except Unit (List TItem) :=
  parseTemplateAux (s.length + 1) s

/-- Expand a parsed template at one match: literals stay, `\g<0>` inserts
the matched text. -/
def applyTemplate (items : List TItem) (matched : List Char) : List Char :=
  items.foldr
    (fun it acc =>
      match it with
      | TItem.lit c => c :: acc
      | TItem.group0 => matched ++ acc)
    []

/-- The literal `<div id="blog-list">` opening the pattern of line 117. -/
def openerL : List Char := "<div id=\"blog-list\">".data

/-- The literal `</div>` closing the pattern of line 117. -/
def closeL : List Char := "</div>".data

/-- Fuelled scan of
`re.sub(r'<div id="blog-list">.*?</div>', repl, s, flags=re.DOTALL)`:
at each position, a match begins iff the opener literal is a prefix there
and `</div>` occurs later; the lazy `.*?` makes the match end at the
NEAREST later `</div>`; every non-overlapping match is replaced and
scanning resumes after the match. -/
def subAllAux (items : List TItem) : Nat → List Char → List Char
  | 0, s => s
  | _ + 1, [] => []
  | f + 1, c :: rest =>
    if openerL.isPrefixOf (c :: rest) then
      match firstIdx closeL ((c :: rest).drop openerL.length) with
      | some j =>
        let matchLen := openerL.length + j + closeL.length
        applyTemplate items ((c :: rest).take matchLen) ++
          subAllAux items f ((c :: rest).drop matchLen)
      | none => c :: rest
    else c :: subAllAux items f rest

/-- `update_blog_listing` (lines 85-124 of `build_blog.py`) on the listing
text read from disk: build the fragment, run `re.sub` with the template
(whose parsing can raise `re.error` for backslash escapes in post fields),
and return the rewritten document. -/
def update_blog_listing (posts : List PostRec) (listing : String) : Except Unit String :=
  match parseTemplate (replText posts).data with
  | Except.error e => Except.error e
  | Except.ok items =>
    Except.ok (String.mk (subAllAux items (listing.data.length + 1) listing.data))

/-- Index of the rightmost occurrence of `pat` as a contiguous sublist of
the input. -/
def lastIdx (pat : List Char) (l : List Char) : Option Nat :=
  (List.range (l.length + 1)).foldl
    (fun acc i => if pat.isPrefixOf (l.drop i) then some i else acc) none

/-- Modelled from claim C1's words, for comparison with the code: replace
only the FIRST region starting at `<div id="blog-list">`, with the replaced
span extending to the LAST closing `</div>` appearing anywhere later in the
document (greedy matching), wrapping the assembled fragment in a new such
region. -/
def update_blog_listing_claimed (posts : List PostRec) (listing : String) : String :=
  match firstIdx openerL listing.data with
  | none => listing
  | some i =>
    match lastIdx closeL (listing.data.drop (i + openerL.length)) with
    | none => listing
    | some j =>
      String.mk (listing.data.take i ++ (replText posts).data ++
        listing.data.drop (i + openerL.length + j + closeL.length))

/-- Index-level statement of the amended claim C1: repeatedly find the
leftmost occurrence of `<div id="blog-list">`, extend the region to the
NEAREST later `</div>`, replace it with the expanded template, and continue
after the replaced region; a document whose first opener has no later
closer is left unchanged. -/
def replaceNearestAux (items : List TItem) : Nat → List Char → List Char
  | 0, s => s
  | f + 1, s =>
    (firstIdx openerL s).elim s (fun i =>
      (firstIdx closeL (s.drop (i + openerL.length))).elim s (fun j =>
        s.take i ++
          applyTemplate items ((s.drop i).take (openerL.length + j + closeL.length)) ++
          replaceNearestAux items f (s.drop (i + openerL.length + j + closeL.length))))

/-- The filesystem state that `main` reads and writes: the Markdown sources
as (slug, text) in glob order, the template file, the Listing Document, and
the generated post pages as (slug, page text).  Absent template or listing
files model unreadable files (`IOError`). -/
structure FS where
  sources : List (String × String)
  template : Option String
  listing : Option String
  pages : List (String × String)
deriving DecidableEq

/-- How a run of `main` ends: early no-op return with zero posts, success
with a post count, an unhandled `IOError`, or an unhandled `re.error` from
the listing substitution.  Only the two error outcomes exit non-zero. -/
inductive BuildResult where
  | noSources
  | ok (n : Nat)
  | ioError
  | reError
deriving DecidableEq

/-- Writing `blog/<slug>/index.html`: overwrite the page if it exists,
otherwise add it. -/
def upsert (pages : List (String × String)) (slug html : String) : List (String × String) :=
  if pages.any (fun p => p.1 == slug) then
    pages.map (fun p => if p.1 == slug then (slug, html) else p)
  else pages ++ [(slug, html)]

/-- The per-file body of the loop of `main` (lines 142-191): parse the
frontmatter, derive slug/title/date, convert the body with the (pure)
markdown converter `conv`, render the page, and produce the Post Record. -/
def processFile (conv : String → String) (now template : String) (f : String × String) : (String × String) × PostRec :=
  let meta := (parse_frontmatter f.2).1
  let body := (parse_frontmatter f.2).2
  let slug := f.1
  let title := (dictGet meta "title").getD (titleFromSlug slug)
  let date := format_date ((dictGet meta "date").getD now)
  let html_content := conv body
  let post_html := generate_blog_post meta html_content slug template now
  ((slug, post_html), ⟨slug, title, date, (dictGet meta "description").getD ""⟩)

/-- The batch loop of `main`: process the source files in order, write each
page, and accumulate the Post Records. -/
def runPosts (conv : String → String) (now template : String) :
    List (String × String) → List (String × String) → List PostRec →
    List (String × String) × List PostRec
  | [], pages, recs => (pages, recs)
  | f :: fsrest, pages, recs =>
    let pr := processFile conv now template f
    runPosts conv now template fsrest (upsert pages pr.1.1 pr.1.2) (recs ++ [pr.2])

/-- `main` (lines 126-198 of `build_blog.py`).  With no sources it returns
early, touching nothing (exit status zero).  Otherwise a missing template
aborts while processing the first file, before any page of this run is
written; after all pages are written, a missing listing aborts, and an
`re.error` from the substitution aborts; otherwise the rewritten listing is
stored and the run succeeds with the post count. -/
def mainBuild (conv : String → String) (now : String) (fs : FS) : FS × BuildResult :=
  if fs.sources.isEmpty then (fs, BuildResult.noSources)
  else
    match fs.template with
    | none => (fs, BuildResult.ioError)
    | some t =>
      let pr := runPosts conv now t fs.sources fs.pages []
      match fs.listing with
      | none => ({ fs with pages := pr.1 }, BuildResult.ioError)
      | some listing =>
        match update_blog_listing pr.2 listing with
        | Except.error _ => ({ fs with pages := pr.1 }, BuildResult.reError)
        | Except.ok newListing =>
          ({ fs with pages := pr.1, listing := some newListing }, BuildResult.ok pr.2.length)

/-- The spec's description of "begins with a frontmatter block matching the
anchored delimiter pattern": an opening `---` line (with optional trailing
whitespace), a frontmatter body, a closing `---` line, and the remaining
body text.  This is the structural counterpart of the anchored regex
`^---\s*\n(.*?)\n---\s*\n(.*)$` under DOTALL. -/
def FMDecomp (s : List Char) : Prop :=
  ∃ w g1 w2 g2 : List Char,
    (∀ c ∈ w, pyIsWs c = true) ∧ (∀ c ∈ w2, pyIsWs c = true) ∧
    s = '-' :: '-' :: '-' ::
      (w ++ '\n' :: (g1 ++ '\n' :: '-' :: '-' :: '-' :: (w2 ++ '\n' :: g2)))

/-- Post Record of a post dated `2024-01-01`, with the date field
reformatted the way `main` builds records (line 159-166). -/
def c5jan : PostRec := ⟨"jan-post", "Jan", format_date "2024-01-01", ""⟩

/-- Post Record of a post dated `2024-06-01`, with the date field
reformatted the way `main` builds records. -/
def c5jun : PostRec := ⟨"jun-post", "Jun", format_date "2024-06-01", ""⟩

/-- A one-post source tree over a listing with one marker region: the input
of the repeated-build experiment. -/
def c2fs : FS :=
  { sources := [("post", "---\ntitle: T\ndate: 2024-01-01\n---\nbody")],
    template := some "PAGE",
    listing := some "A<div id=\"blog-list\">x</div>B",
    pages := [] }

/-- First build run on `c2fs`. -/
def c2run1 : FS × BuildResult := mainBuild (fun s => s) "N" c2fs

/-- Second build run, on the state left by the first run (the sources,
template and markdown conversion are unchanged; the listing is the one the
first run wrote). -/
def c2run2 : FS × BuildResult := mainBuild (fun s => s) "N" c2run1.1

/-- Equality of listing-update results is decidable. -/
instance : DecidableEq (Except Unit String) := fun a b =>
  match a, b with
  | Except.ok x, Except.ok y =>
    if h : x = y then Decidable.isTrue (by rw [h])
    else Decidable.isFalse (fun hc => h (Except.ok.inj hc))
  | Except.error x, Except.error y => Decidable.isTrue (by cases x; cases y; rfl)
  | Except.ok _, Except.error _ => Decidable.isFalse (fun hc => Except.noConfusion hc)
  | Except.error _, Except.ok _ => Decidable.isFalse (fun hc => Except.noConfusion hc)

/-- The Listing Document of the C1 experiment: a marker region whose body
contains an extra closing tag later in the document, followed by a second
marker region. -/
def c1listing : String :=
  "<div id=\"blog-list\">a</div>b</div><div id=\"blog-list\">c</div>"

/-! ## Lemmas and claim theorems -/

theorem pyStrLtL_asymm :
    ∀ a b : List Char, pyStrLtL a b = true → pyStrLtL b a = false := by
  intro a
  induction a with
  | nil =>
    intro b h
    cases b with
    | nil => simp [pyStrLtL] at h
    | cons y ys => simp [pyStrLtL]
  | cons x xs ih =>
    intro b h
    cases b with
    | nil => simp [pyStrLtL] at h
    | cons y ys =>
      simp only [pyStrLtL] at h ⊢
      by_cases hxy : x < y
      · rw [if_pos hxy] at h
        rw [if_neg (lt_asymm hxy), if_pos hxy]
      · rw [if_neg hxy] at h
        by_cases hyx : y < x
        · rw [if_pos hyx] at h
          exact absurd h (by simp)
        · rw [if_neg hyx] at h
          rw [if_neg hyx, if_neg hxy]
          exact ih ys h

theorem pyStrLtL_nlt_trans :
    ∀ a b c : List Char, pyStrLtL a b = false → pyStrLtL b c = false →
      pyStrLtL a c = false := by
  intro a
  induction a with
  | nil =>
    intro b c h1 h2
    cases b with
    | nil =>
      cases c with
      | nil => simp [pyStrLtL]
      | cons z zs => simp [pyStrLtL] at h2
    | cons y ys => simp [pyStrLtL] at h1
  | cons x xs ih =>
    intro b c h1 h2
    cases c with
    | nil => simp [pyStrLtL]
    | cons z zs =>
      cases b with
      | nil => simp [pyStrLtL] at h2
      | cons y ys =>
        simp only [pyStrLtL] at h1 h2 ⊢
        by_cases hxy : x < y
        · rw [if_pos hxy] at h1
          exact absurd h1 (by simp)
        · rw [if_neg hxy] at h1
          by_cases hyz : y < z
          · rw [if_pos hyz] at h2
            exact absurd h2 (by simp)
          · rw [if_neg hyz] at h2
            have hzx : ¬ x < z := fun hlt =>
              absurd (lt_of_lt_of_le hlt (le_of_not_lt hyz)) hxy
            rw [if_neg hzx]
            by_cases hyx : y < x
            · rw [if_pos (lt_of_le_of_lt (le_of_not_lt hyz) hyx)]
            · rw [if_neg hyx] at h1
              by_cases hzy : z < y
              · rw [if_pos (lt_of_lt_of_le hzy (le_of_not_lt hxy))]
              · rw [if_neg hzy] at h2
                by_cases hzx2 : z < x
                · rw [if_pos hzx2]
                · rw [if_neg hzx2]
                  exact ih ys zs h1 h2

theorem insertDesc_mem {p x : PostRec} :
    ∀ {l : List PostRec}, x ∈ insertDesc p l → x = p ∨ x ∈ l := by
  intro l
  induction l with
  | nil =>
    intro h
    simp [insertDesc] at h
    exact Or.inl h
  | cons q qs ih =>
    intro h
    cases hlt : pyStrLt p.date q.date with
    | true =>
      rw [insertDesc, if_pos hlt] at h
      rcases List.mem_cons.mp h with rfl | h'
      · exact Or.inr (List.mem_cons_self _ _)
      · rcases ih h' with h'' | h''
        · exact Or.inl h''
        · exact Or.inr (List.mem_cons_of_mem _ h'')
    | false =>
      rw [insertDesc, if_neg (by rw [hlt]; exact Bool.false_ne_true)] at h
      rcases List.mem_cons.mp h with rfl | h'
      · exact Or.inl rfl
      · exact Or.inr h'

theorem insertDesc_pairwise {p : PostRec} :
    ∀ {l : List PostRec}, l.Pairwise (fun a b => pyStrLt a.date b.date = false) →
      (insertDesc p l).Pairwise (fun a b => pyStrLt a.date b.date = false) := by
  intro l
  induction l with
  | nil =>
    intro _
    simp [insertDesc]
  | cons q qs ih =>
    intro h
    rcases List.pairwise_cons.mp h with ⟨hq, hqs⟩
    cases hlt : pyStrLt p.date q.date with
    | true =>
      rw [insertDesc, if_pos hlt]
      refine List.pairwise_cons.mpr ⟨?_, ih hqs⟩
      intro x hx
      rcases insertDesc_mem hx with rfl | hx'
      · exact pyStrLtL_asymm _ _ hlt
      · exact hq x hx'
    | false =>
      rw [insertDesc, if_neg (by rw [hlt]; exact Bool.false_ne_true)]
      refine List.pairwise_cons.mpr ⟨?_, h⟩
      intro x hx
      rcases List.mem_cons.mp hx with rfl | hx'
      · exact hlt
      · exact pyStrLtL_nlt_trans _ _ _ hlt (hq x hx')

theorem sortDesc_pairwise (l : List PostRec) :
    (sortDesc l).Pairwise (fun a b => pyStrLt a.date b.date = false) := by
  induction l with
  | nil => simp [sortDesc]
  | cons x xs ih => exact insertDesc_pairwise ih

/-- C5: Post Records are sorted for the listing by their date compared as a
string, descending (no earlier record's date is strictly below a later
one's in Python's string order); in particular, with records dated
`2024-01-01` and `2024-06-01` as `main` builds them (dates reformatted to
the long form before the sort), the June record sorts first regardless of
input order, and the generated listing fragment text is the June fragment
followed by the January fragment. -/
theorem c5_listing_sorted_desc :
    (∀ posts : List PostRec,
      (sortDesc posts).Pairwise (fun a b => pyStrLt a.date b.date = false)) ∧
    sortDesc [c5jan, c5jun] = [c5jun, c5jan] ∧
    sortDesc [c5jun, c5jan] = [c5jun, c5jan] ∧
    blog_list_html [c5jan, c5jun] = postFragment c5jun ++ postFragment c5jan :=
  ⟨sortDesc_pairwise, by decide, by decide, by decide⟩

/-- C6: a date matching the ISO `YYYY-MM-DD` pattern is reformatted to
`Month DD, YYYY` (`2024-03-05` becomes `March 05, 2024`); a date that does
not match the pattern, or on which the reformat fails (`strptime` raises),
passes through unchanged, the failure being silently swallowed. -/
theorem c6_date_format :
    format_date "2024-03-05" = "March 05, 2024" ∧
    (∀ s : String, isoDatePat s.data = false → format_date s = s) ∧
    (∀ s : String, strptimeYmd s = none → format_date s = s) := by
  refine ⟨by decide, ?_, ?_⟩
  · intro s h
    simp [format_date, h]
  · intro s h
    simp [format_date, h]

/-- Witness for C6 at concrete inputs: a non-ISO date and an ISO-looking
but invalid date both pass through unchanged. -/
theorem c6_date_format_witness :
    format_date "yesterday" = "yesterday" ∧ format_date "2024-13-05" = "2024-13-05" :=
  ⟨c6_date_format.2.1 "yesterday" (by decide), c6_date_format.2.2 "2024-13-05" (by decide)⟩

/-- C8: with no Markdown sources, the orchestrator returns early with the
whole filesystem state (in particular the Listing Document) untouched, and
reports the no-op with a successful exit. -/
theorem c8_no_sources (conv : String → String) (now : String) (fs : FS)
    (h : fs.sources = []) :
    mainBuild conv now fs = (fs, BuildResult.noSources) := by
  simp [mainBuild, h]

/-- Witness for C8 at a concrete empty source tree. -/
theorem c8_no_sources_witness :
    mainBuild (fun s => s) "N"
        { sources := [], template := none, listing := some "L", pages := [] } =
      ({ sources := [], template := none, listing := some "L", pages := [] },
        BuildResult.noSources) :=
  c8_no_sources _ _ _ rfl

/-- C2 counterexample: on a one-post source tree (explicit frontmatter
date), the Listing Document written by the second build run differs from
the one written by the first run, refuting byte-identical output. -/
theorem c2_counterexample : c2run2.1.listing ≠ c2run1.1.listing := by decide

/-- C2 amended: re-running the build on unchanged inputs (the post carrying
an explicit date) reproduces the rendered post pages byte-identically, but
not the Listing Document: the second run's non-greedy region match stops at
the first `</div>` nested inside the fragment the first run inserted,
leaving a residual tail, so the two listings differ (shown on a one-post
build; both runs still report success). -/
theorem c2_amended :
    c2run1.2 = BuildResult.ok 1 ∧
    c2run2.2 = BuildResult.ok 1 ∧
    c2run2.1.pages = c2run1.1.pages ∧
    c2run2.1.listing ≠ c2run1.1.listing :=
  ⟨by decide, by decide, by decide, by decide⟩

theorem upsert_any_self (pages : List (String × String)) (slug html : String) :
    (upsert pages slug html).any (fun p => p.1 == slug) = true := by
  unfold upsert
  by_cases hp : (pages.any fun p => p.1 == slug) = true
  · rw [if_pos hp]
    rcases List.any_eq_true.mp hp with ⟨x, hx, hkey⟩
    refine List.any_eq_true.mpr ⟨_, List.mem_map_of_mem _ hx, ?_⟩
    simp only [if_pos hkey]
    simp
  · rw [if_neg hp]
    simp

theorem upsert_any_mono (pages : List (String × String)) (slug html k : String)
    (h : pages.any (fun p => p.1 == k) = true) :
    (upsert pages slug html).any (fun p => p.1 == k) = true := by
  unfold upsert
  by_cases hp : (pages.any fun p => p.1 == slug) = true
  case neg =>
    rw [if_neg hp]
    rw [List.any_append, h, Bool.true_or]
  case pos =>
    rw [if_pos hp]
    rcases List.any_eq_true.mp h with ⟨x, hx, hxk⟩
    refine List.any_eq_true.mpr ⟨_, List.mem_map_of_mem _ hx, ?_⟩
    by_cases hxs : (x.1 == slug) = true
    · simp only [if_pos hxs]
      have hx1 : x.1 = slug := eq_of_beq hxs
      simpa [← hx1] using hxk
    · simp only [if_neg hxs]
      exact hxk

theorem runPosts_pages_mono (conv : String → String) (now t : String) :
    ∀ (files pages : List (String × String)) (recs : List PostRec) (k : String),
      pages.any (fun p => p.1 == k) = true →
      (runPosts conv now t files pages recs).1.any (fun p => p.1 == k) = true := by
  intro files
  induction files with
  | nil =>
    intro pages recs k h
    simpa [runPosts] using h
  | cons f fsrest ih =>
    intro pages recs k h
    simp only [runPosts]
    exact ih _ _ _ (upsert_any_mono _ _ _ _ h)

theorem runPosts_covers (conv : String → String) (now t : String) :
    ∀ (files pages : List (String × String)) (recs : List PostRec),
      ∀ f ∈ files,
        (runPosts conv now t files pages recs).1.any (fun p => p.1 == f.1) = true := by
  intro files
  induction files with
  | nil =>
    intro pages recs f hf
    cases hf
  | cons g fsrest ih =>
    intro pages recs f hf
    rcases List.mem_cons.mp hf with rfl | hf'
    · simp only [runPosts]
      exact runPosts_pages_mono _ _ _ _ _ _ _ (upsert_any_self _ _ _)
    · simp only [runPosts]
      exact ih _ _ f hf'

/-- C9: if the template file is unreadable the build aborts with a fatal
I/O error while handling the first post, before any page of this run is
written, leaving the filesystem exactly as it was; if the Listing Document
is unreadable the build aborts with a fatal I/O error after the whole
batch, with no retry and no cleanup: the listing stays unreadable,
the final pages are exactly the pages written by the batch, and every
processed source still has its page on disk. -/
theorem c9_fatal_io (conv : String → String) (now : String) (fs : FS) :
    (fs.sources ≠ [] → fs.template = none →
      mainBuild conv now fs = (fs, BuildResult.ioError)) ∧
    (∀ t, fs.sources ≠ [] → fs.template = some t → fs.listing = none →
      (mainBuild conv now fs).2 = BuildResult.ioError ∧
      (mainBuild conv now fs).1.listing = none ∧
      (mainBuild conv now fs).1.pages = (runPosts conv now t fs.sources fs.pages []).1 ∧
      ∀ f ∈ fs.sources,
        ((mainBuild conv now fs).1.pages).any (fun p => p.1 == f.1) = true) := by
  constructor
  · intro hs ht
    have hne : fs.sources.isEmpty = false := by
      cases hsrc : fs.sources with
      | nil => exact absurd hsrc hs
      | cons a as => rfl
    simp [mainBuild, hne, ht]
  · intro t hs ht hl
    have hne : fs.sources.isEmpty = false := by
      cases hsrc : fs.sources with
      | nil => exact absurd hsrc hs
      | cons a as => rfl
    simp only [mainBuild, hne, ht, hl, Bool.false_eq_true, if_false]
    refine ⟨trivial, trivial, trivial, ?_⟩
    intro f hf
    exact runPosts_covers conv now t fs.sources fs.pages [] f hf

/-- Witness for C9 at concrete one-post filesystems: a missing template
aborts leaving the state untouched; a missing listing aborts after the
page for slug `p` was written. -/
theorem c9_fatal_io_witness :
    mainBuild (fun s => s) "N"
        { sources := [("p", "x")], template := none, listing := some "L", pages := [] } =
      ({ sources := [("p", "x")], template := none, listing := some "L", pages := [] },
        BuildResult.ioError) ∧
    (mainBuild (fun s => s) "N"
        { sources := [("p", "x")], template := some "T", listing := none, pages := [] }).2 =
      BuildResult.ioError ∧
    (mainBuild (fun s => s) "N"
        { sources := [("p", "x")], template := some "T", listing := none, pages := [] }).1.listing =
      none ∧
    ((mainBuild (fun s => s) "N"
        { sources := [("p", "x")], template := some "T", listing := none, pages := [] }).1.pages).any
        (fun p => p.1 == "p") = true :=
  ⟨(c9_fatal_io (fun s => s) "N" _).1 (by decide) rfl,
   ((c9_fatal_io (fun s => s) "N" _).2 "T" (by decide) rfl rfl).1,
   ((c9_fatal_io (fun s => s) "N" _).2 "T" (by decide) rfl rfl).2.1,
   ((c9_fatal_io (fun s => s) "N" _).2 "T" (by decide) rfl rfl).2.2.2 ("p", "x") (by decide)⟩

theorem mem_of_head_reverse {α : Type} {l : List α} {a : α}
    (h : l.reverse.head? = some a) : a ∈ l := by
  cases hrev : l.reverse with
  | nil => rw [hrev] at h; cases h
  | cons b bs =>
    rw [hrev] at h
    have hb : b = a := Option.some.inj h
    subst hb
    have : b ∈ l.reverse := hrev ▸ List.mem_cons_self _ _
    exact List.mem_reverse.mp this

theorem wsNlAsc_sound :
    ∀ {t r : List Char}, r ∈ wsNlAsc t →
      ∃ w, (∀ c ∈ w, pyIsWs c = true) ∧ t = w ++ '\n' :: r := by
  intro t
  induction t with
  | nil =>
    intro r h
    simp [wsNlAsc] at h
  | cons c rest ih =>
    intro r h
    simp only [wsNlAsc, List.mem_append] at h
    rcases h with h | h
    · by_cases hc : c = '\n'
      · rw [if_pos hc] at h
        have hr : r = rest := by simpa using h
        subst hr; subst hc
        exact ⟨[], by simp, rfl⟩
      · rw [if_neg hc] at h
        cases h
    · by_cases hw : pyIsWs c = true
      · rw [if_pos hw] at h
        rcases ih h with ⟨w, hwall, heq⟩
        refine ⟨c :: w, ?_, by rw [List.cons_append, ← heq]⟩
        intro d hd
        rcases List.mem_cons.mp hd with rfl | hd'
        · exact hw
        · exact hwall d hd'
      · rw [if_neg hw] at h
        cases h

theorem fmTryRems_sound :
    ∀ {L : List (List Char)} {pr : List Char × List Char}, fmTryRems L = some pr →
      ∃ r ∈ L, fmGroup1 r = some pr := by
  intro L
  induction L with
  | nil =>
    intro pr h
    simp [fmTryRems] at h
  | cons r rs ih =>
    intro pr h
    simp only [fmTryRems] at h
    cases hg : fmGroup1 r with
    | some pr2 =>
      rw [hg] at h
      exact ⟨r, List.mem_cons_self _ _, by rw [hg, Option.some.inj h]⟩
    | none =>
      rw [hg] at h
      rcases ih h with ⟨r2, hm, hr2⟩
      exact ⟨r2, List.mem_cons_of_mem _ hm, hr2⟩

theorem fmGroup1_sound :
    ∀ {t g1 g2 : List Char}, fmGroup1 t = some (g1, g2) →
      ∃ w2, (∀ c ∈ w2, pyIsWs c = true) ∧
        t = g1 ++ '\n' :: '-' :: '-' :: '-' :: (w2 ++ '\n' :: g2) := by
  intro t
  induction t with
  | nil =>
    intro g1 g2 h
    simp [fmGroup1] at h
  | cons c rest ih =>
    intro g1 g2 h
    simp only [fmGroup1] at h
    by_cases hp : nlDashes.isPrefixOf (c :: rest) = true
    · cases hh : ((wsNlAsc ((c :: rest).drop 4)).reverse).head? with
      | some r =>
        rw [if_pos hp, hh] at h
        have hpair := Option.some.inj h
        have hg1 : g1 = [] := (congrArg Prod.fst hpair).symm
        have hg2 : g2 = r := (congrArg Prod.snd hpair).symm
        subst hg1; subst hg2
        rcases List.isPrefixOf_iff_prefix.mp hp with ⟨u, hu⟩
        have hc : c = '\n' := by
          have := congrArg (fun l => l.head?) hu
          simpa [nlDashes] using this.symm
        have hrest : rest = '-' :: '-' :: '-' :: u := by
          have := congrArg (fun l => l.tail) hu
          simpa [nlDashes] using this.symm
        have hdrop : (c :: rest).drop 4 = u := by
          rw [hrest]
          rfl
        rw [hdrop] at hh
        rcases wsNlAsc_sound (mem_of_head_reverse hh) with ⟨w2, hws, hueq⟩
        refine ⟨w2, hws, ?_⟩
        rw [hc, hrest, hueq]
        rfl
      | none =>
        rw [if_pos hp, hh] at h
        cases hg : fmGroup1 rest with
        | none => rw [hg] at h; cases h
        | some pr =>
          obtain ⟨pg1, pg2⟩ := pr
          rw [hg] at h
          have hpair := Option.some.inj h
          have hg1 : g1 = c :: pg1 := (congrArg Prod.fst hpair).symm
          have hg2 : g2 = pg2 := (congrArg Prod.snd hpair).symm
          subst hg1; subst hg2
          rcases ih hg with ⟨w2, hws, heq⟩
          exact ⟨w2, hws, by rw [List.cons_append, ← heq]⟩
    · rw [if_neg hp] at h
      cases hg : fmGroup1 rest with
      | none => rw [hg] at h; cases h
      | some pr =>
        obtain ⟨pg1, pg2⟩ := pr
        rw [hg] at h
        have hpair := Option.some.inj h
        have hg1 : g1 = c :: pg1 := (congrArg Prod.fst hpair).symm
        have hg2 : g2 = pg2 := (congrArg Prod.snd hpair).symm
        subst hg1; subst hg2
        rcases ih hg with ⟨w2, hws, heq⟩
        exact ⟨w2, hws, by rw [List.cons_append, ← heq]⟩

theorem fmMatch_sound {s : List Char} {pr : List Char × List Char}
    (h : fmMatch s = some pr) : FMDecomp s := by
  unfold fmMatch at h
  by_cases hd : dashes3.isPrefixOf s = true
  · rw [if_pos hd] at h
    rcases fmTryRems_sound h with ⟨r, hrm, hg⟩
    rcases wsNlAsc_sound (List.mem_reverse.mp hrm) with ⟨w, hws, heq⟩
    obtain ⟨g1, g2⟩ := pr
    rcases fmGroup1_sound hg with ⟨w2, hws2, heqr⟩
    rcases List.isPrefixOf_iff_prefix.mp hd with ⟨u, hu⟩
    have hdrop : s.drop 3 = u := by
      rw [← hu]
      rfl
    refine ⟨w, g1, w2, g2, hws, hws2, ?_⟩
    rw [← hu]
    have hu2 : u = w ++ '\n' :: r := by rw [← hdrop, heq]
    rw [hu2, heqr]
    rfl
  · rw [if_neg hd] at h
    cases h

theorem fmDecomp_count {s : List Char} (h : FMDecomp s) : 6 ≤ s.count '-' := by
  rcases h with ⟨w, g1, w2, g2, _, _, rfl⟩
  simp [List.count_cons, List.count_append]
  omega

/-- C7: for every input that does not begin with a frontmatter block
matching the anchored delimiter pattern (`FMDecomp` is the structural
reading of that pattern, so this covers malformed blocks), the Frontmatter
Parser returns the empty metadata mapping paired with the full original
text unchanged; being a total function, it raises no error. -/
theorem c7_no_frontmatter (content : String) (h : ¬ FMDecomp content.data) :
    parse_frontmatter content = ([], content) := by
  cases hm : fmMatch content.data with
  | some pr => exact absurd (fmMatch_sound hm) h
  | none => simp [parse_frontmatter, hm]

/-- Witness for C7 on a malformed block: an opening delimiter with no
closing delimiter is degraded to "no frontmatter found". -/
theorem c7_no_frontmatter_witness :
    parse_frontmatter "---\ntitle: x" = ([], "---\ntitle: x") :=
  c7_no_frontmatter _ (fun h => absurd (fmDecomp_count h) (by decide))

theorem dropBoth_id {p : Char → Bool} {l : List Char}
    (h : ∀ c ∈ l, p c = false) : dropBoth p l = l := by
  unfold dropBoth
  have h1 : List.dropWhile p l = l := by
    cases l with
    | nil => rfl
    | cons c rest =>
      rw [List.dropWhile_cons, h c (List.mem_cons_self _ _)]
      simp
  rw [h1]
  have h2 : List.dropWhile p l.reverse = l.reverse := by
    cases hr : l.reverse with
    | nil => rfl
    | cons c rest =>
      have hc : c ∈ l := List.mem_reverse.mp (hr ▸ List.mem_cons_self _ _)
      rw [List.dropWhile_cons, h c hc]
      simp
  rw [h2, List.reverse_reverse]

theorem dropWhile_replicate_append (p : Char → Bool) (c : Char) (hp : p c = true) :
    ∀ (n : Nat) (l : List Char),
      List.dropWhile p (List.replicate n c ++ l) = List.dropWhile p l := by
  intro n
  induction n with
  | zero => intro l; rfl
  | succ n ih =>
    intro l
    rw [List.replicate_succ, List.cons_append, List.dropWhile_cons, hp]
    simpa using ih l

theorem stripValL_nested_quotes (n : Nat) :
    stripValL (List.replicate n '"' ++ ['H', 'e', 'l', 'l', 'o'] ++ List.replicate n '"') =
      ['H', 'e', 'l', 'l', 'o'] := by
  have hws : ∀ c ∈ List.replicate n '"' ++ ['H', 'e', 'l', 'l', 'o'] ++ List.replicate n '"',
      pyIsWs c = false := by
    intro c hc
    rcases List.mem_append.mp hc with hc1 | hc2
    · rcases List.mem_append.mp hc1 with hr | hh
      · rw [List.eq_of_mem_replicate hr]; decide
      · fin_cases hh <;> decide
    · rw [List.eq_of_mem_replicate hc2]; decide
  unfold stripValL pyStripWsL
  rw [dropBoth_id hws]
  have hQ : dropBoth (fun c => c = '"')
      (List.replicate n '"' ++ ['H', 'e', 'l', 'l', 'o'] ++ List.replicate n '"') =
      ['H', 'e', 'l', 'l', 'o'] := by
    unfold dropBoth
    rw [List.append_assoc, dropWhile_replicate_append _ _ (by decide) n]
    rw [show (['H', 'e', 'l', 'l', 'o'] ++ List.replicate n '"' : List Char) =
          'H' :: (['e', 'l', 'l', 'o'] ++ List.replicate n '"') from rfl]
    rw [List.dropWhile_cons]
    simp only [show (decide ('H' = '"')) = false from rfl, Bool.false_eq_true, if_false]
    rw [show ('H' :: (['e', 'l', 'l', 'o'] ++ List.replicate n '"') : List Char) =
          ['H', 'e', 'l', 'l', 'o'] ++ List.replicate n '"' from rfl]
    rw [List.reverse_append, List.reverse_replicate]
    rw [dropWhile_replicate_append _ _ (by decide) n]
    rfl
  rw [hQ]
  rfl

theorem takeWhile_to_colon {k : List Char} (v : List Char)
    (hk : ∀ c ∈ k, (c == ':') = false) :
    (k ++ ':' :: v).takeWhile (fun c => !(c == ':')) = k := by
  induction k with
  | nil => simp [List.takeWhile_cons]
  | cons c rest ih =>
    rw [List.cons_append, List.takeWhile_cons, hk c (List.mem_cons_self _ _)]
    simp only [Bool.not_false, if_true]
    rw [ih (fun d hd => hk d (List.mem_cons_of_mem _ hd))]

theorem dropWhile_to_colon {k : List Char} (v : List Char)
    (hk : ∀ c ∈ k, (c == ':') = false) :
    (k ++ ':' :: v).dropWhile (fun c => !(c == ':')) = ':' :: v := by
  induction k with
  | nil => simp [List.dropWhile_cons]
  | cons c rest ih =>
    rw [List.cons_append, List.dropWhile_cons, hk c (List.mem_cons_self _ _)]
    simp only [Bool.not_false, if_true]
    exact ih (fun d hd => hk d (List.mem_cons_of_mem _ hd))

/-- C3 counterexample: on the frontmatter line `title: ""Hello""`, whose
value has two nested layers of surrounding double quotes, the parser yields
the value `Hello`, not the claimed `"Hello"` (all layers are stripped, not
exactly the outermost one). -/
theorem c3_counterexample :
    (parse_frontmatter "---\ntitle: \"\"Hello\"\"\n---\nbody").1 = [("title", "Hello")] ∧
    ("Hello" : String) ≠ "\"Hello\"" :=
  ⟨by decide, by decide⟩

/-- C3 amended: for every frontmatter line containing a colon, the parser
splits at the first colon, trims the key, and trims the value and then
strips ALL surrounding double-quote characters and then all surrounding
single-quote characters from it — not exactly one layer: `"Hello"` still
parses to `Hello`, but a value with any number of nested double-quote
layers loses all of them. -/
theorem c3_amended :
    (∀ (m : List (String × String)) (k v : List Char),
      (∀ c ∈ k, (c == ':') = false) →
      fmParseLine m (k ++ ':' :: v) =
        dictInsert m (String.mk (pyStripWsL k)) (String.mk (stripValL v))) ∧
    (∀ n : Nat,
      stripValL (List.replicate n '"' ++ ['H', 'e', 'l', 'l', 'o'] ++ List.replicate n '"') =
        ['H', 'e', 'l', 'l', 'o']) ∧
    parse_frontmatter "---\ntitle: \"Hello\"\n---\nbody" = ([("title", "Hello")], "body") := by
  refine ⟨?_, stripValL_nested_quotes, by decide⟩
  intro m k v hk
  unfold fmParseLine
  have hcont : (k ++ ':' :: v).contains ':' = true :=
    List.elem_iff.mpr (List.mem_append_right _ (List.mem_cons_self _ _))
  rw [if_pos hcont, takeWhile_to_colon v hk, dropWhile_to_colon v hk]
  rfl

/-- Witness for C3 at a concrete line and at two quote layers. -/
theorem c3_amended_witness :
    fmParseLine [] ("title".data ++ ':' :: " x".data) =
      dictInsert [] (String.mk (pyStripWsL "title".data)) (String.mk (stripValL " x".data)) ∧
    stripValL (List.replicate 2 '"' ++ ['H', 'e', 'l', 'l', 'o'] ++ List.replicate 2 '"') =
      ['H', 'e', 'l', 'l', 'o'] :=
  ⟨c3_amended.1 [] _ _ (by decide), c3_amended.2.1 2⟩

theorem firstIdx_none_of_hasSub_false {pat s : List Char} (h : hasSub pat s = false) :
    firstIdx pat s = none := by
  unfold hasSub at h
  cases hf : firstIdx pat s with
  | none => rfl
  | some i => rw [hf] at h; simp at h

theorem pyReplaceAux_no_occ {pat rep : List Char} :
    ∀ (f : Nat) (s : List Char), firstIdx pat s = none → pyReplaceAux pat rep f s = s := by
  intro f
  induction f with
  | zero => intro s _; rfl
  | succ f ih =>
    intro s h
    cases s with
    | nil => rfl
    | cons c rest =>
      unfold firstIdx at h
      by_cases hp : pat.isPrefixOf (c :: rest) = true
      · rw [if_pos hp] at h
        cases h
      · rw [if_neg hp] at h
        rw [pyReplaceAux, if_neg hp]
        rw [ih rest (Option.map_eq_none'.mp h)]

theorem pyReplace_no_occ {pat rep s : String}
    (h : firstIdx pat.data s.data = none) : pyReplace pat rep s = s := by
  unfold pyReplace
  rw [pyReplaceAux_no_occ _ _ h]

/-- C4 counterexample: with a title whose text is the later-substituted
token `{{DATE}}`, the rendered page contains the date value where the title
was inserted, and the title's own text does not appear verbatim anywhere in
the output. -/
theorem c4_counterexample :
    generate_blog_post [("title", "\x7b\x7bDATE\x7d\x7d"), ("date", "2024-01-01")] "" "s"
        "<h1>\x7b\x7bTITLE\x7d\x7d</h1><time>\x7b\x7bDATE\x7d\x7d</time>" "N" =
      "<h1>January 01, 2024</h1><time>January 01, 2024</time>" ∧
    hasSub "\x7b\x7bDATE\x7d\x7d".data
      (generate_blog_post [("title", "\x7b\x7bDATE\x7d\x7d"), ("date", "2024-01-01")] "" "s"
        "<h1>\x7b\x7bTITLE\x7d\x7d</h1><time>\x7b\x7bDATE\x7d\x7d</time>" "N").data = false :=
  ⟨by decide, by decide⟩

/-- C4 amended: the five tokens are substituted sequentially in the fixed
order TITLE, DESCRIPTION, DATE, SLUG, CONTENT, each pass replacing every
occurrence in the whole intermediate text as literal text; a value
containing a token substituted in a LATER pass is therefore itself
substituted further rather than appearing verbatim: a title `{{DATE}}`
renders as the (formatted) date value, in both template positions, for any
date value free of the still-later tokens. -/
theorem c4_amended (d : String)
    (hfd : format_date d = d)
    (h1 : hasSub "\x7b\x7bSLUG\x7d\x7d".data
      ("<h1>" ++ d ++ "</h1><time>" ++ d ++ "</time>").data = false)
    (h2 : hasSub "\x7b\x7bCONTENT\x7d\x7d".data
      ("<h1>" ++ d ++ "</h1><time>" ++ d ++ "</time>").data = false) :
    generate_blog_post [("title", "\x7b\x7bDATE\x7d\x7d"), ("date", d)] "" "s"
        "<h1>\x7b\x7bTITLE\x7d\x7d</h1><time>\x7b\x7bDATE\x7d\x7d</time>" "N" =
      "<h1>" ++ d ++ "</h1><time>" ++ d ++ "</time>" := by
  show pyReplace "\x7b\x7bCONTENT\x7d\x7d" ""
      (pyReplace "\x7b\x7bSLUG\x7d\x7d" "s"
        (pyReplace "\x7b\x7bDATE\x7d\x7d" (format_date d)
          (pyReplace "\x7b\x7bDESCRIPTION\x7d\x7d" ""
            (pyReplace "\x7b\x7bTITLE\x7d\x7d" "\x7b\x7bDATE\x7d\x7d"
              "<h1>\x7b\x7bTITLE\x7d\x7d</h1><time>\x7b\x7bDATE\x7d\x7d</time>")))) =
    "<h1>" ++ d ++ "</h1><time>" ++ d ++ "</time>"
  rw [hfd]
  rw [show pyReplace "\x7b\x7bDESCRIPTION\x7d\x7d" ""
        (pyReplace "\x7b\x7bTITLE\x7d\x7d" "\x7b\x7bDATE\x7d\x7d"
          "<h1>\x7b\x7bTITLE\x7d\x7d</h1><time>\x7b\x7bDATE\x7d\x7d</time>") =
      "<h1>\x7b\x7bDATE\x7d\x7d</h1><time>\x7b\x7bDATE\x7d\x7d</time>" from by decide]
  rw [show pyReplace "\x7b\x7bDATE\x7d\x7d" d
        "<h1>\x7b\x7bDATE\x7d\x7d</h1><time>\x7b\x7bDATE\x7d\x7d</time>" =
      "<h1>" ++ d ++ "</h1><time>" ++ d ++ "</time>" from by
    apply String.ext
    simp [pyReplace, pyReplaceAux, String.data_append]]
  rw [@pyReplace_no_occ "\x7b\x7bSLUG\x7d\x7d" "s"
    ("<h1>" ++ d ++ "</h1><time>" ++ d ++ "</time>") (firstIdx_none_of_hasSub_false h1)]
  rw [@pyReplace_no_occ "\x7b\x7bCONTENT\x7d\x7d" ""
    ("<h1>" ++ d ++ "</h1><time>" ++ d ++ "</time>") (firstIdx_none_of_hasSub_false h2)]

/-- Witness for C4 at the concrete formatted date value. -/
theorem c4_amended_witness :
    generate_blog_post [("title", "\x7b\x7bDATE\x7d\x7d"), ("date", "January 01, 2024")] "" "s"
        "<h1>\x7b\x7bTITLE\x7d\x7d</h1><time>\x7b\x7bDATE\x7d\x7d</time>" "N" =
      "<h1>" ++ "January 01, 2024" ++ "</h1><time>" ++ "January 01, 2024" ++ "</time>" :=
  c4_amended "January 01, 2024" (by decide) (by decide) (by decide)

theorem firstIdx_zero_here {pat s : List Char}
    (hp : pat.isPrefixOf s = true) : firstIdx pat s = some 0 := by
  cases s with
  | nil =>
    cases pat with
    | nil => rfl
    | cons p ps => cases hp
  | cons c rest => rw [firstIdx, if_pos hp]

theorem firstIdx_cons_shift {pat : List Char} {c : Char} {rest : List Char}
    (hp : ¬ pat.isPrefixOf (c :: rest) = true) :
    firstIdx pat (c :: rest) = (firstIdx pat rest).map (fun i => i + 1) := by
  rw [firstIdx, if_neg hp]

theorem firstIdx_some_bound {pat : List Char} :
    ∀ {s : List Char} {i : Nat}, firstIdx pat s = some i → i + pat.length ≤ s.length := by
  intro s
  induction s with
  | nil =>
    intro i h
    unfold firstIdx at h
    by_cases he : pat.isEmpty = true
    · rw [if_pos he] at h
      have hi : i = 0 := (Option.some.inj h).symm
      subst hi
      simp [List.isEmpty_iff.mp he]
    · rw [if_neg he] at h
      cases h
  | cons c rest ih =>
    intro i h
    by_cases hp : pat.isPrefixOf (c :: rest) = true
    · rw [firstIdx, if_pos hp] at h
      have hi : i = 0 := (Option.some.inj h).symm
      subst hi
      simpa using (List.isPrefixOf_iff_prefix.mp hp).length_le
    · rw [firstIdx, if_neg hp] at h
      cases hr : firstIdx pat rest with
      | none => rw [hr] at h; cases h
      | some i' =>
        rw [hr] at h
        have hi : i = i' + 1 := (Option.some.inj h).symm
        subst hi
        have := ih hr
        simp only [List.length_cons]
        omega

theorem subAllAux_miss (items : List TItem) (f : Nat) (c : Char) (rest : List Char)
    (hp : ¬ openerL.isPrefixOf (c :: rest) = true) :
    subAllAux items (f + 1) (c :: rest) = c :: subAllAux items f rest := by
  rw [subAllAux, if_neg hp]

theorem subAllAux_hit (items : List TItem) (f : Nat) (s : List Char)
    (hp : openerL.isPrefixOf s = true) (j : Nat)
    (hj : firstIdx closeL (s.drop openerL.length) = some j) :
    subAllAux items (f + 1) s =
      applyTemplate items (s.take (openerL.length + j + closeL.length)) ++
        subAllAux items f (s.drop (openerL.length + j + closeL.length)) := by
  cases s with
  | nil => cases hp
  | cons c rest => rw [subAllAux, if_pos hp, hj]

theorem subAllAux_hit_none (items : List TItem) (f : Nat) (s : List Char)
    (hp : openerL.isPrefixOf s = true)
    (hj : firstIdx closeL (s.drop openerL.length) = none) :
    subAllAux items (f + 1) s = s := by
  cases s with
  | nil => cases hp
  | cons c rest => rw [subAllAux, if_pos hp, hj]

theorem replaceNearest_none (items : List TItem) (f : Nat) (s : List Char)
    (h : firstIdx openerL s = none) :
    replaceNearestAux items (f + 1) s = s := by
  rw [replaceNearestAux, h]
  rfl

theorem replaceNearest_noclose (items : List TItem) (f : Nat) (s : List Char) (i : Nat)
    (hi : firstIdx openerL s = some i)
    (hj : firstIdx closeL (s.drop (i + openerL.length)) = none) :
    replaceNearestAux items (f + 1) s = s := by
  rw [replaceNearestAux, hi]
  simp only [Option.elim]
  rw [hj]

theorem replaceNearest_step (items : List TItem) (f : Nat) (s : List Char) (i j : Nat)
    (hi : firstIdx openerL s = some i)
    (hj : firstIdx closeL (s.drop (i + openerL.length)) = some j) :
    replaceNearestAux items (f + 1) s =
      s.take i ++
        applyTemplate items ((s.drop i).take (openerL.length + j + closeL.length)) ++
        replaceNearestAux items f (s.drop (i + openerL.length + j + closeL.length)) := by
  rw [replaceNearestAux, hi]
  simp only [Option.elim]
  rw [hj]

theorem subAllAux_no_opener (items : List TItem) :
    ∀ (f : Nat) (s : List Char), firstIdx openerL s = none → subAllAux items f s = s := by
  intro f
  induction f with
  | zero => intro s _; rfl
  | succ f ih =>
    intro s h
    cases s with
    | nil => rfl
    | cons c rest =>
      by_cases hp : openerL.isPrefixOf (c :: rest) = true
      · rw [firstIdx_zero_here hp] at h
        cases h
      · rw [firstIdx_cons_shift hp] at h
        rw [subAllAux_miss items f c rest hp, ih rest (Option.map_eq_none'.mp h)]

theorem subAllAux_no_close (items : List TItem) :
    ∀ (f : Nat) (s : List Char) (i : Nat), firstIdx openerL s = some i →
      firstIdx closeL (s.drop (i + openerL.length)) = none →
      subAllAux items f s = s := by
  intro f
  induction f with
  | zero => intro s i _ _; rfl
  | succ f ih =>
    intro s i hi hj
    cases s with
    | nil => rfl
    | cons c rest =>
      by_cases hp : openerL.isPrefixOf (c :: rest) = true
      · have hi0 : i = 0 := by
          rw [firstIdx_zero_here hp] at hi
          exact (Option.some.inj hi).symm
        subst hi0
        rw [Nat.zero_add] at hj
        exact subAllAux_hit_none items f _ hp hj
      · rw [firstIdx_cons_shift hp] at hi
        cases hr : firstIdx openerL rest with
        | none => rw [hr] at hi; cases hi
        | some i' =>
          rw [hr] at hi
          have hii : i = i' + 1 := (Option.some.inj hi).symm
          subst hii
          rw [show i' + 1 + openerL.length = (i' + openerL.length) + 1 from by omega,
              List.drop_succ_cons] at hj
          rw [subAllAux_miss items f c rest hp, ih rest i' hr hj]

theorem replaceNearestAux_fuel (items : List TItem) :
    ∀ (n f g : Nat) (s : List Char), s.length ≤ n → s.length < f → s.length < g →
      replaceNearestAux items f s = replaceNearestAux items g s := by
  intro n
  induction n with
  | zero =>
    intro f g s hs hf hg
    have hnil : s = [] := List.length_eq_zero.mp (Nat.le_zero.mp hs)
    subst hnil
    cases f with
    | zero => omega
    | succ f =>
      cases g with
      | zero => omega
      | succ g => rfl
  | succ n ih =>
    intro f g s hs hf hg
    cases f with
    | zero => omega
    | succ f =>
      cases g with
      | zero => omega
      | succ g =>
        cases hi : firstIdx openerL s with
        | none => rw [replaceNearest_none items f s hi, replaceNearest_none items g s hi]
        | some i =>
          cases hj : firstIdx closeL (s.drop (i + openerL.length)) with
          | none =>
            rw [replaceNearest_noclose items f s i hi hj,
              replaceNearest_noclose items g s i hi hj]
          | some j =>
            rw [replaceNearest_step items f s i j hi hj,
              replaceNearest_step items g s i j hi hj]
            have hb1 := firstIdx_some_bound hi
            have hb2 := firstIdx_some_bound hj
            rw [List.length_drop] at hb2
            have h20 : openerL.length = 20 := rfl
            have h6 : closeL.length = 6 := rfl
            congr 1
            apply ih
            · rw [List.length_drop]; omega
            · rw [List.length_drop]; omega
            · rw [List.length_drop]; omega

theorem subAllAux_eq_replaceNearest (items : List TItem) :
    ∀ (f : Nat) (s : List Char), s.length < f →
      subAllAux items f s = replaceNearestAux items f s := by
  intro f
  induction f with
  | zero => intro s h; omega
  | succ f ih =>
    intro s h
    cases s with
    | nil => rfl
    | cons c rest =>
      have h20 : openerL.length = 20 := rfl
      have h6 : closeL.length = 6 := rfl
      by_cases hp : openerL.isPrefixOf (c :: rest) = true
      · have hi : firstIdx openerL (c :: rest) = some 0 := firstIdx_zero_here hp
        cases hj : firstIdx closeL ((c :: rest).drop openerL.length) with
        | none =>
          rw [subAllAux_hit_none items f _ hp hj,
            replaceNearest_noclose items f _ 0 hi (by rw [Nat.zero_add]; exact hj)]
        | some j =>
          have hb := firstIdx_some_bound hj
          rw [List.length_drop] at hb
          rw [subAllAux_hit items f _ hp j hj,
            replaceNearest_step items f _ 0 j hi (by rw [Nat.zero_add]; exact hj)]
          simp only [List.take_zero, List.nil_append, List.drop_zero, Nat.zero_add]
          congr 1
          apply ih
          rw [List.length_drop]
          simp only [List.length_cons] at h ⊢
          omega
      · have hlenr : rest.length < f := by
          simp only [List.length_cons] at h
          omega
        rw [subAllAux_miss items f c rest hp]
        cases hr : firstIdx openerL rest with
        | none =>
          have hi : firstIdx openerL (c :: rest) = none := by
            rw [firstIdx_cons_shift hp, hr]
            rfl
          rw [subAllAux_no_opener items f rest hr, replaceNearest_none items f _ hi]
        | some i =>
          have hi : firstIdx openerL (c :: rest) = some (i + 1) := by
            rw [firstIdx_cons_shift hp, hr]
            rfl
          have hdropEq : (c :: rest).drop (i + 1 + openerL.length) =
              rest.drop (i + openerL.length) := by
            rw [show i + 1 + openerL.length = (i + openerL.length) + 1 from by omega,
              List.drop_succ_cons]
          cases hj : firstIdx closeL (rest.drop (i + openerL.length)) with
          | none =>
            rw [subAllAux_no_close items f rest i hr hj,
              replaceNearest_noclose items f _ (i + 1) hi (by rw [hdropEq]; exact hj)]
          | some j =>
            rw [ih rest hlenr]
            cases f with
            | zero => omega
            | succ f' =>
              rw [replaceNearest_step items f' rest i j hr hj,
                replaceNearest_step items (f' + 1) _ (i + 1) j hi (by rw [hdropEq]; exact hj)]
              rw [List.take_succ_cons, List.drop_succ_cons]
              rw [show i + 1 + openerL.length + j + closeL.length =
                  (i + openerL.length + j + closeL.length) + 1 from by omega,
                List.drop_succ_cons]
              simp only [List.cons_append, List.append_assoc]
              congr 3
              have hb1 := firstIdx_some_bound hr
              have hb2 := firstIdx_some_bound hj
              rw [List.length_drop] at hb2
              apply replaceNearestAux_fuel items rest.length
              · rw [List.length_drop]; omega
              · rw [List.length_drop]; omega
              · rw [List.length_drop]; omega

/-- C1 counterexample: on a Listing Document with an extra later `</div>`
and a second marker region, the code's update (non-greedy `re.sub` over all
matches) produces a different document from the claimed update (first
region only, span extending to the last `</div>` in the document). -/
theorem c1_counterexample :
    update_blog_listing [] c1listing ≠
      Except.ok (update_blog_listing_claimed [] c1listing) := by decide

/-- C1 amended: the Listing Updater replaces EVERY non-overlapping region
(scanned left to right) that starts at `<div id="blog-list">`, each
extending only to the NEAREST closing `</div>` appearing later (non-greedy,
no nested-tag balancing; a document whose remaining opener has no later
closer is left unchanged from that point), wrapping the assembled fragment
in a new such region: the code's scan equals the index-level
find-nearest-and-replace description for every input. -/
theorem c1_amended (posts : List PostRec) (listing : String) :
    update_blog_listing posts listing =
      Except.map
        (fun items => String.mk
          (replaceNearestAux items (listing.data.length + 1) listing.data))
        (parseTemplate (replText posts).data) := by
  unfold update_blog_listing
  cases hp : parseTemplate (replText posts).data with
  | error e => rfl
  | ok items =>
    show Except.ok (String.mk (subAllAux items (listing.data.length + 1) listing.data)) = _
    rw [subAllAux_eq_replaceNearest items _ _ (Nat.lt_succ_self _)]
    rfl

/-- C10: the region replacement goes through `re.sub` template expansion:
for a post whose title contains the backslash sequence `\1`, the update
raises `re.error` (invalid group reference) instead of inserting the
fragment literally, and the whole build run aborts with that error. -/
theorem c10_resub_escape :
    update_blog_listing [⟨"s", "\\1", "January 01, 2024", ""⟩]
        "<div id=\"blog-list\">x</div>" = Except.error () ∧
    (mainBuild (fun s => s) "N"
      { sources := [("p", "---\ntitle: \\1\n---\nb")], template := some "T",
        listing := some "<div id=\"blog-list\">x</div>", pages := [] }).2 =
      BuildResult.reError :=
  ⟨by decide, by decide⟩
